/-
Verification of the manifest import-structure resolution engine of
sdkConfigurator.py (NXP West Manifest Configurator).

Strings are modelled as `List Char`; Python `'needle' in hay` is substring
containment, `s.endswith(t)` is suffix testing, both decidable here.
The network is modelled by passing the fetch outcome (or the fetching
function itself) as an explicit argument.
-/

import Mathlib

abbrev PyStr := List Char

/-- Python `needle in hay` (plain case-sensitive substring test). -/
def strContains (needle hay : PyStr) : Bool := decide (needle <:+: hay)

/-- Python `s.endswith(suffix)`. -/
def strEndsWith (suffix s : PyStr) : Bool := suffix.isSuffixOf s

/-- Python `pathlib.Path(p).name` for the paths this program feeds it
(no trailing separator): the segment after the last '/'. -/
def pathName (p : PyStr) : PyStr := (p.reverse.takeWhile (fun c => c ≠ '/')).reverse

def ymlSuffix : PyStr := ".yml".toList

def slashStr : PyStr := "/".toList

/-- Python `s.replace(pat, rep)`: replace every non-overlapping occurrence of
`pat`, scanning left to right. -/
def replaceAll (pat rep : PyStr) : PyStr → PyStr
  | [] => []
  | c :: rest =>
    if pat.isPrefixOf (c :: rest) ∧ pat ≠ [] then
      rep ++ replaceAll pat rep (rest.drop (pat.length - 1))
    else
      c :: replaceAll pat rep rest
termination_by s => s.length
decreasing_by
  · simp only [List.length_drop, List.length_cons]
    omega
  · simp [List.length_cons]

/-- One element of the JSON array returned by the GitHub contents endpoint:
only the `name` field is consumed. -/
structure RawEntry where
  name : PyStr
deriving DecidableEq, Repr

/-- Outcome of the HTTP GET against the contents endpoint: a raised transport
error/timeout, or a response with a status code and (when parsed) a body. -/
inductive FetchResult where
  | error : FetchResult
  | response (status : Nat) (body : List RawEntry) : FetchResult
deriving DecidableEq, Repr

/-- One entry of a resolved directory listing, as built by
`_fetch_directory_contents`. -/
structure DirEntry where
  name : PyStr
  filename : PyStr
  path : PyStr
deriving DecidableEq, Repr, Inhabited

/-- `ManifestExplorer._fetch_directory_contents`: on a 200 response keep the
body entries whose name ends with '.yml', building `{name, filename, path}`
records; any exception or non-200 status yields `[]`. -/
def fetchDirectoryContents (resp : FetchResult) (dirPath : PyStr) : List DirEntry :=
  match resp with
  | .error => []
  | .response status files =>
    if status = 200 then
      (files.filter (fun f => strEndsWith ymlSuffix f.name)).map
        (fun f =>
          { name := replaceAll ymlSuffix [] f.name
            filename := f.name
            path := dirPath ++ f.name })
    else []

inductive EntryKind where
  | file : EntryKind
  | directory : EntryKind
  | unknown : EntryKind
deriving DecidableEq, Repr, Inhabited

/-- The info dict built by `_analyze_import_path`: `path`, `type`, `contents`,
and (for files) `filename`. -/
structure ImportInfo where
  path : PyStr
  kind : EntryKind
  contents : List DirEntry
  filename : Option PyStr
deriving DecidableEq, Repr, Inhabited

/-- `ManifestExplorer._analyze_import_path`, with the directory-listing fetch
abstracted as `fetchDir` (one call per probed directory path). -/
def analyzeImportPath (fetchDir : PyStr → List DirEntry) (path : PyStr) : ImportInfo :=
  if strEndsWith ymlSuffix path then
    { path := path, kind := .file, contents := [], filename := some (pathName path) }
  else if strEndsWith slashStr path then
    { path := path, kind := .directory, contents := fetchDir path, filename := none }
  else
    let dirContents := fetchDir (path ++ slashStr)
    if dirContents ≠ [] then
      { path := path ++ slashStr, kind := .directory, contents := dirContents, filename := none }
    else
      { path := path, kind := .file, contents := [], filename := some (pathName path) }

/-- A value appearing in the root manifest's `self.import` YAML list: either a
string or something else (`analyze_imports` skips non-strings). -/
inductive YamlVal where
  | str (s : PyStr) : YamlVal
  | other : YamlVal
deriving DecidableEq, Repr

/-- Python dict assignment `d[k] = v` on an insertion-ordered dict, modelled as
an association list: an existing key keeps its position and gets the new value,
a fresh key is appended. -/
def dictInsert (k : PyStr) (v : ImportInfo) : List (PyStr × ImportInfo) → List (PyStr × ImportInfo)
  | [] => [(k, v)]
  | (k', v') :: rest => if k' = k then (k, v) :: rest else (k', v') :: dictInsert k v rest

/-- The string entries of a `self.import` list, in declared order. -/
def stringEntries (imports : List YamlVal) : List PyStr :=
  imports.filterMap (fun v => match v with | .str s => some s | .other => none)

/-- The loop body of `analyze_imports`: a string entry is classified and
stored under its raw path, anything else is skipped. -/
def analyzeStep (fetchDir : PyStr → List DirEntry) (st : List (PyStr × ImportInfo)) :
    YamlVal → List (PyStr × ImportInfo)
  | .str s => dictInsert s (analyzeImportPath fetchDir s) st
  | .other => st

/-- `ManifestExplorer.analyze_imports` over an already-fetched root document:
classify each string entry of `self.import` in declared order, building the
insertion-ordered `structure` dict. -/
def analyzeImports (fetchDir : PyStr → List DirEntry) (imports : List YamlVal) :
    List (PyStr × ImportInfo) :=
  imports.foldl (analyzeStep fetchDir) []

inductive Category where
  | baseFiles : Category
  | devices : Category
  | middleware : Category
  | rtos : Category
  | other : Category
deriving DecidableEq, Repr

/-- The category cascade of `populate_imports` (first match wins), applied to
the normalized path `info.get('path', path)`. -/
def categorize (normPath : PyStr) : Category :=
  if strContains "base.yml".toList normPath || strContains "internal.yml".toList normPath then
    .baseFiles
  else if strContains "devices".toList normPath then .devices
  else if strContains "middleware".toList normPath then .middleware
  else if strContains "rtos".toList normPath then .rtos
  else .other

/-- The fixed order in which `populate_imports` creates category sections. -/
def categoryOrder : List Category := [.baseFiles, .devices, .middleware, .rtos, .other]

/-- `populate_imports`: pair every analyzed entry with its normalized path,
then lay the entries out category by category (declaration order kept inside
each category). -/
def populateOrder (entries : List (PyStr × ImportInfo)) : List (PyStr × ImportInfo) :=
  let normed := entries.map (fun pi => (pi.2.path, pi.2))
  (categoryOrder.map (fun c => normed.filter (fun e => categorize e.1 = c))).flatten

/-- `ManifestConfiguratorGUI._guess_default`. -/
def guessDefault (path : PyStr) : Bool :=
  if strContains "base.yml".toList path || strContains "internal.yml".toList path then true
  else if strContains "rtos".toList path then true
  else if strContains "devices/".toList path && strEndsWith ymlSuffix path then false
  else if strContains "middleware/".toList path && strEndsWith slashStr path then true
  else false

/-- Python string `<=`: lexicographic by code point. -/
def strLe : PyStr → PyStr → Bool
  | [], _ => true
  | _ :: _, [] => false
  | a :: as, b :: bs => if a < b then true else if b < a then false else strLe as bs

/-- Python `sorted(contents, key=lambda x: x['name'])` (stable). -/
def sortEntries (contents : List DirEntry) : List DirEntry :=
  contents.mergeSort (fun a b => strLe a.name b.name)

inductive DirMode where
  | all : DirMode
  | none : DirMode
  | selective : DirMode
deriving DecidableEq, Repr

/-- The widget state backing one entry in `import_vars`: a `tk.BooleanVar`
(file entries and empty directories) or a `tk.StringVar` radio mode together
with the per-child `tk.BooleanVar`s of `directory_selections[path]`, keyed by
child full path in listing-sorted order. -/
inductive Selection where
  | file (included : Bool) : Selection
  | dir (mode : DirMode) (childVars : List (PyStr × Bool)) : Selection
deriving DecidableEq, Repr

/-- The initial widget state `create_category_section` gives one entry: files
get a checkbox initialized from `_guess_default`; directories with a fetched
listing get the radio group initialized to "all" with every child unchecked;
directories whose listing is empty get a plain checkbox initialized to False;
an entry of unknown kind gets no widget at all. -/
def defaultSelection (info : ImportInfo) : Option Selection :=
  match info.kind with
  | .file => some (.file (guessDefault info.path))
  | .directory =>
    if info.contents ≠ [] then
      some (.dir .all ((sortEntries info.contents).map (fun e => (e.path, false))))
    else
      some (.file false)
  | .unknown => none

/-- One value of `ManifestConfig.imports`: Python `bool` or `List[str]`. -/
inductive ConfigValue where
  | bool (b : Bool) : ConfigValue
  | list (paths : List PyStr) : ConfigValue
deriving DecidableEq, Repr

/-- The per-entry step of `build_config_from_ui`: a `BooleanVar` maps to its
value; a `StringVar` maps "all" to True, "none" to False, and "selective" to
the checked children of `directory_selections[path]` in insertion order. -/
def selectionToValue : Selection → ConfigValue
  | .file b => .bool b
  | .dir .all _ => .bool true
  | .dir .none _ => .bool false
  | .dir .selective childVars =>
    .list ((childVars.filter (fun cv => cv.2)).map (fun cv => cv.1))

/-- The `imports` loop of `build_config_from_ui` over the ordered
`import_vars` map. -/
def buildConfigImports (sels : List (PyStr × Selection)) : List (PyStr × ConfigValue) :=
  sels.map (fun ps => (ps.1, selectionToValue ps.2))

/-- The import-building loop of `generate_manifest_dict`: a True bool appends
the path, a False bool appends nothing, a list extends with its elements. -/
def flattenImports : List (PyStr × ConfigValue) → List PyStr
  | [] => []
  | (path, .bool b) :: rest =>
    if b then path :: flattenImports rest else flattenImports rest
  | (_, .list vs) :: rest => vs ++ flattenImports rest

/-- End-to-end Selection Model `flatten`: `build_config_from_ui` followed by
the import-building loop of `generate_manifest_dict`. -/
def flattenSelections (sels : List (PyStr × Selection)) : List PyStr :=
  flattenImports (buildConfigImports sels)

/-- The `ManifestConfig` dataclass (the `imports` values as built by
`build_config_from_ui`; `created_at` always a string after `__post_init__`). -/
structure ManifestConfig where
  imports : List (PyStr × ConfigValue)
  group_filters : List PyStr
  use_nxp_remotes : Bool
  use_nxp_defaults : Bool
  use_nxp_west_commands : Bool
  created_at : PyStr
  nxp_manifest_revision : PyStr
  nxp_manifest_url : Option PyStr
deriving DecidableEq, Repr

/-- The projection `ManifestExplorer.get_all_configuration` of a fetched root
manifest: `remotes` (opaque YAML items), `defaults` (a mapping, values taken
as strings here), `group-filter`, and the `self` mapping's `path` and
`west-commands` (absent key modelled as `none`). -/
structure NxpConfig where
  remotes : List YamlVal
  defaults : List (PyStr × PyStr)
  groupFilter : List PyStr
  selfPath : Option PyStr
  selfWestCommands : Option PyStr
deriving DecidableEq, Repr

structure SelfBlock where
  path : Option PyStr
  westCommands : Option PyStr
deriving DecidableEq, Repr

structure Project where
  name : PyStr
  remote : PyStr
  revision : PyStr
  importList : List PyStr
deriving DecidableEq, Repr

/-- The output dict of `generate_manifest_dict`: each `Option` field is a key
of `manifest` that may be absent. -/
structure GenManifest where
  remotes : Option (List YamlVal)
  defaults : Option (List (PyStr × PyStr))
  groupFilter : Option (List PyStr)
  selfBlock : Option SelfBlock
  projects : Option (List Project)
deriving DecidableEq, Repr

/-- The bare `{'manifest': \x7b\x7d}` skeleton. -/
def emptyGenManifest : GenManifest :=
  { remotes := none, defaults := none, groupFilter := none, selfBlock := none, projects := none }

/-- `ManifestConfiguratorGUI.generate_manifest_dict`: when no root manifest is
held (`self.explorer.manifest` falsy) every branch is skipped and the bare
skeleton is returned; otherwise sections are gated by the toggles and
truthiness checks of the source, and `projects` holds the single synthesized
project. -/
def generateManifestDict (root : Option NxpConfig) (cfg : ManifestConfig) : GenManifest :=
  match root with
  | none => emptyGenManifest
  | some nxp =>
    let defaults := if cfg.use_nxp_defaults ∧ nxp.defaults ≠ [] then some nxp.defaults else none
    let imports := flattenImports cfg.imports
    let remoteName :=
      match defaults with
      | some d => (d.lookup "remote".toList).getD "nxp-mcuxpresso".toList
      | none => "nxp-mcuxpresso".toList
    { remotes := if cfg.use_nxp_remotes ∧ nxp.remotes ≠ [] then some nxp.remotes else none
      defaults := defaults
      groupFilter := if cfg.group_filters ≠ [] then some cfg.group_filters else none
      selfBlock := some
        { path := nxp.selfPath
          westCommands :=
            if cfg.use_nxp_west_commands then
              match nxp.selfWestCommands with
              | some s => if s ≠ [] then some s else none
              | none => none
            else none }
      projects := some [{ name := "mcuxsdk-manifests".toList
                          remote := remoteName
                          revision := "main".toList
                          importList := imports }] }

/-- The JSON values `json.dump`/`json.load` exchange for a saved
configuration file. -/
inductive Json where
  | null : Json
  | bool (b : Bool) : Json
  | str (s : PyStr) : Json
  | arr (xs : List Json) : Json
  | obj (fields : List (PyStr × Json)) : Json

/-- JSON image of one `imports` value (bool or list of strings). -/
def configValueToJson : ConfigValue → Json
  | .bool b => .bool b
  | .list ps => .arr (ps.map Json.str)

/-- `save_config`'s `config_dict`, as the JSON object `json.dump` writes. -/
def serializeConfig (c : ManifestConfig) : Json :=
  .obj
    [("imports".toList, .obj (c.imports.map (fun pv => (pv.1, configValueToJson pv.2)))),
     ("group_filters".toList, .arr (c.group_filters.map Json.str)),
     ("use_nxp_remotes".toList, .bool c.use_nxp_remotes),
     ("use_nxp_defaults".toList, .bool c.use_nxp_defaults),
     ("use_nxp_west_commands".toList, .bool c.use_nxp_west_commands),
     ("created_at".toList, .str c.created_at),
     ("nxp_manifest_revision".toList, .str c.nxp_manifest_revision),
     ("nxp_manifest_url".toList,
       match c.nxp_manifest_url with | some u => .str u | none => .null)]

/-- Python dict key lookup on a JSON object (keys unique after `json.load`). -/
def jsonGet (k : PyStr) : List (PyStr × Json) → Option Json
  | [] => none
  | (k', v) :: rest => if k' = k then some v else jsonGet k rest

/-- Reads a JSON string back as a Python string. -/
def jsonToStr : Json → Option PyStr
  | .str s => some s
  | _ => none

def jsonToConfigValue : Json → Option ConfigValue
  | .bool b => some (.bool b)
  | .arr xs => (xs.mapM jsonToStr).map ConfigValue.list
  | _ => none

def jsonToImports : Json → Option (List (PyStr × ConfigValue))
  | .obj fields => fields.mapM (fun kv => (jsonToConfigValue kv.2).map (fun v => (kv.1, v)))
  | _ => none

/-- The keyword parameters `ManifestConfig(**data)` accepts. -/
def allowedConfigKeys : List PyStr :=
  ["imports".toList, "group_filters".toList, "use_nxp_remotes".toList,
   "use_nxp_defaults".toList, "use_nxp_west_commands".toList, "created_at".toList,
   "nxp_manifest_revision".toList, "nxp_manifest_url".toList]

/-- `load_config`'s `ManifestConfig(**json.load(f))`: a key outside the
dataclass raises `TypeError` (modelled as failure), a missing key takes the
dataclass default, and a value whose shape the typed model cannot hold is a
failure (`created_at` absent or null would be refilled by `datetime.now()`,
which is not modelled). -/
def deserializeConfig (j : Json) : Option ManifestConfig := do
  let .obj fields := j | none
  guard (fields.all (fun kv => allowedConfigKeys.contains kv.1))
  let imports ← match jsonGet "imports".toList fields with
    | some ij => jsonToImports ij
    | none => some []
  let group_filters ← match jsonGet "group_filters".toList fields with
    | some (.arr xs) => xs.mapM jsonToStr
    | some _ => none
    | none => some []
  let use_nxp_remotes ← match jsonGet "use_nxp_remotes".toList fields with
    | some (.bool b) => some b
    | some _ => none
    | none => some true
  let use_nxp_defaults ← match jsonGet "use_nxp_defaults".toList fields with
    | some (.bool b) => some b
    | some _ => none
    | none => some true
  let use_nxp_west_commands ← match jsonGet "use_nxp_west_commands".toList fields with
    | some (.bool b) => some b
    | some _ => none
    | none => some true
  let created_at ← match jsonGet "created_at".toList fields with
    | some (.str s) => some s
    | _ => none
  let nxp_manifest_revision ← match jsonGet "nxp_manifest_revision".toList fields with
    | some (.str s) => some s
    | some _ => none
    | none => some "main".toList
  let nxp_manifest_url ← match jsonGet "nxp_manifest_url".toList fields with
    | some (.str s) => some (some s)
    | some .null => some none
    | some _ => none
    | none => some none
  pure { imports, group_filters, use_nxp_remotes, use_nxp_defaults,
         use_nxp_west_commands, created_at, nxp_manifest_revision, nxp_manifest_url }

/-! Supporting lemmas. -/

lemma stringEntries_cons_str (s : PyStr) (rest : List YamlVal) :
    stringEntries (.str s :: rest) = s :: stringEntries rest := rfl

lemma stringEntries_cons_other (rest : List YamlVal) :
    stringEntries (.other :: rest) = stringEntries rest := rfl

lemma mem_keys_dictInsert (k k' : PyStr) (v : ImportInfo) (l : List (PyStr × ImportInfo)) :
    k' ∈ (dictInsert k v l).map Prod.fst ↔ k' = k ∨ k' ∈ l.map Prod.fst := by
  induction l with
  | nil => simp [dictInsert]
  | cons kv rest ih =>
    obtain ⟨k0, v0⟩ := kv
    by_cases h : k0 = k
    · subst h
      simp only [dictInsert, if_pos, List.map_cons, List.mem_cons]
      constructor
      · exact Or.inr
      · rintro (h1 | h1 | h1)
        · exact Or.inl h1
        · exact Or.inl h1
        · exact Or.inr h1
    · simp only [dictInsert, if_neg h, List.map_cons, List.mem_cons, ih]
      constructor
      · rintro (h1 | h1 | h1)
        · exact Or.inr (Or.inl h1)
        · exact Or.inl h1
        · exact Or.inr (Or.inr h1)
      · rintro (h1 | h1 | h1)
        · exact Or.inr (Or.inl h1)
        · exact Or.inl h1
        · exact Or.inr (Or.inr h1)

lemma dictInsert_of_not_mem (k : PyStr) (v : ImportInfo) (l : List (PyStr × ImportInfo))
    (h : k ∉ l.map Prod.fst) : dictInsert k v l = l ++ [(k, v)] := by
  induction l with
  | nil => rfl
  | cons kv rest ih =>
    obtain ⟨k0, v0⟩ := kv
    simp only [List.map_cons, List.mem_cons, not_or] at h
    have hne : ¬k0 = k := fun hq => h.1 hq.symm
    simp [dictInsert, hne, ih h.2]

lemma foldl_analyzeStep_keys (f : PyStr → List DirEntry) (imps : List YamlVal) :
    ∀ (acc : List (PyStr × ImportInfo)) (k : PyStr),
      k ∈ (imps.foldl (analyzeStep f) acc).map Prod.fst ↔
        k ∈ acc.map Prod.fst ∨ k ∈ stringEntries imps := by
  induction imps with
  | nil => simp [stringEntries]
  | cons v rest ih =>
    intro acc k
    cases v with
    | str s =>
      rw [List.foldl_cons]
      show k ∈ ((rest.foldl (analyzeStep f) (dictInsert s _ acc)).map Prod.fst) ↔ _
      rw [ih, mem_keys_dictInsert, stringEntries_cons_str]
      simp only [List.mem_cons]
      constructor
      · rintro ((h1 | h1) | h1)
        · exact Or.inr (Or.inl h1)
        · exact Or.inl h1
        · exact Or.inr (Or.inr h1)
      · rintro (h1 | h1 | h1)
        · exact Or.inl (Or.inr h1)
        · exact Or.inl (Or.inl h1)
        · exact Or.inr h1
    | other =>
      rw [List.foldl_cons]
      show k ∈ ((rest.foldl (analyzeStep f) acc).map Prod.fst) ↔ _
      rw [ih, stringEntries_cons_other]

lemma foldl_analyzeStep_keys_nodup (f : PyStr → List DirEntry) (imps : List YamlVal) :
    ∀ (acc : List (PyStr × ImportInfo)),
      (stringEntries imps).Nodup →
      (∀ s ∈ stringEntries imps, s ∉ acc.map Prod.fst) →
      (imps.foldl (analyzeStep f) acc).map Prod.fst = acc.map Prod.fst ++ stringEntries imps := by
  induction imps with
  | nil => simp [stringEntries]
  | cons v rest ih =>
    intro acc hn hd
    cases v with
    | str s =>
      rw [List.foldl_cons]
      show (rest.foldl (analyzeStep f) (dictInsert s _ acc)).map Prod.fst = _
      rw [stringEntries_cons_str] at hn hd ⊢
      have hs : s ∉ acc.map Prod.fst := hd s (List.mem_cons_self s _)
      rw [ih (dictInsert s _ acc) (List.nodup_cons.mp hn).2 ?fresh]
      · rw [dictInsert_of_not_mem _ _ _ hs]
        simp
      case fresh =>
        intro t ht
        rw [dictInsert_of_not_mem _ _ _ hs]
        simp only [List.map_append, List.map_cons, List.map_nil, List.mem_append,
          List.mem_cons, List.not_mem_nil, or_false, not_or]
        exact ⟨hd t (List.mem_cons_of_mem _ ht),
          fun hts => (List.nodup_cons.mp hn).1 (hts ▸ ht)⟩
    | other =>
      rw [List.foldl_cons]
      show (rest.foldl (analyzeStep f) acc).map Prod.fst = _
      rw [stringEntries_cons_other] at hn hd ⊢
      exact ih acc hn hd

lemma filter_cat_self (l : List (PyStr × ImportInfo)) (c : Category) :
    (l.filter (fun e => categorize e.1 = c)).filter (fun e => categorize e.1 = c) =
      l.filter (fun e => categorize e.1 = c) := by
  induction l with
  | nil => rfl
  | cons e rest ih =>
    by_cases h : categorize e.1 = c
    · simp [List.filter_cons, h, ih]
    · simp [List.filter_cons, h, ih]

lemma filter_cat_ne (l : List (PyStr × ImportInfo)) (c c' : Category) (h : c ≠ c') :
    (l.filter (fun e => categorize e.1 = c)).filter (fun e => categorize e.1 = c') = [] := by
  induction l with
  | nil => rfl
  | cons e rest ih =>
    by_cases hc : categorize e.1 = c
    · have hc' : ¬categorize e.1 = c' := fun hq => h (hc ▸ hq)
      simp [List.filter_cons, hc, hc', ih, h]
    · simp [List.filter_cons, hc, ih]

lemma filter_cat_pair (l : List (PyStr × ImportInfo)) (c c' : Category) (h : c ≠ c') :
    l.filter (fun e => decide (categorize e.1 = c) && decide (categorize e.1 = c')) = [] := by
  induction l with
  | nil => rfl
  | cons e rest ih =>
    by_cases hc : categorize e.1 = c
    · have hc' : ¬categorize e.1 = c' := fun hq => h (hc ▸ hq)
      simp [List.filter_cons, hc, hc', ih, h]
    · simp [List.filter_cons, hc, ih]

lemma guessDefault_eq (p : PyStr) :
    guessDefault p =
      (((strContains "base.yml".toList p || strContains "internal.yml".toList p) ||
        strContains "rtos".toList p) ||
        (!(strContains "devices/".toList p && strEndsWith ymlSuffix p) &&
         (strContains "middleware/".toList p && strEndsWith slashStr p))) := by
  unfold guessDefault
  cases (strContains "base.yml".toList p || strContains "internal.yml".toList p) <;>
  cases strContains "rtos".toList p <;>
  cases strContains "devices/".toList p <;>
  cases strEndsWith ymlSuffix p <;>
  cases strContains "middleware/".toList p <;>
  cases strEndsWith slashStr p <;> rfl

lemma mapM_loop_jsonToStr (ps : List PyStr) (acc : List PyStr) :
    List.mapM.loop jsonToStr (ps.map Json.str) acc = some (acc.reverse ++ ps) := by
  induction ps generalizing acc with
  | nil => simp [List.mapM.loop]
  | cons p rest ih => simp [List.mapM.loop, jsonToStr, ih]

lemma flattenSelections_cons (p : PyStr) (sel : Selection) (rest : List (PyStr × Selection)) :
    flattenSelections ((p, sel) :: rest) =
      (match selectionToValue sel with
        | .bool b => if b then [p] else []
        | .list vs => vs) ++ flattenSelections rest := by
  cases hv : selectionToValue sel with
  | bool b =>
    cases b <;>
      simp [flattenSelections, buildConfigImports, flattenImports, hv]
  | list vs =>
    simp [flattenSelections, buildConfigImports, flattenImports, hv]

lemma flattenSelections_all_off (sels : List (PyStr × Selection))
    (h : ∀ ps ∈ sels, ps.2 = Selection.file false ∨
      ∃ cvs, ps.2 = Selection.dir .none cvs) :
    flattenSelections sels = [] := by
  induction sels with
  | nil => rfl
  | cons ps rest ih =>
    obtain ⟨p, sel⟩ := ps
    have hrest : flattenSelections rest = [] :=
      ih (fun q hq => h q (List.mem_cons_of_mem _ hq))
    rcases h (p, sel) (List.mem_cons_self _ _) with h1 | ⟨cvs, h2⟩
    · simp only at h1
      rw [h1, flattenSelections_cons]
      simpa [selectionToValue] using hrest
    · simp only at h2
      rw [h2, flattenSelections_cons]
      simpa [selectionToValue] using hrest

lemma mapM_jsonToStr_round (ps : List PyStr) :
    (ps.map Json.str).mapM jsonToStr = some ps := by
  induction ps with
  | nil => rfl
  | cons p rest ih =>
    rw [List.map_cons, List.mapM_cons, ih]
    rfl

lemma jsonToConfigValue_round (v : ConfigValue) :
    jsonToConfigValue (configValueToJson v) = some v := by
  cases v with
  | bool b => rfl
  | list ps =>
    show ((ps.map Json.str).mapM jsonToStr).map ConfigValue.list = some (ConfigValue.list ps)
    rw [mapM_jsonToStr_round]
    rfl

lemma jsonToImports_round (l : List (PyStr × ConfigValue)) :
    jsonToImports (.obj (l.map (fun pv => (pv.1, configValueToJson pv.2)))) = some l := by
  show (l.map (fun pv => (pv.1, configValueToJson pv.2))).mapM
      (fun kv => (jsonToConfigValue kv.2).map (fun v => (kv.1, v))) = some l
  induction l with
  | nil => rfl
  | cons pv rest ih =>
    rw [List.map_cons, List.mapM_cons, ih]
    simp [jsonToConfigValue_round]

/-! Claim theorems. -/

/-- C1: for an ambiguous raw import path P (no '.yml' suffix, no trailing
'/'), `_analyze_import_path` returns kind directory with normalized path
P + '/' and contents equal to the fetched listing iff the listing fetched at
P + '/' is non-empty; otherwise kind file with the path unchanged and the
display name the last path segment. -/
theorem claim_C1_ambiguous_classification (fetchDir : PyStr → List DirEntry) (p : PyStr)
    (h1 : strEndsWith ymlSuffix p = false) (h2 : strEndsWith slashStr p = false) :
    (fetchDir (p ++ slashStr) ≠ [] →
      analyzeImportPath fetchDir p =
        { path := p ++ slashStr, kind := .directory,
          contents := fetchDir (p ++ slashStr), filename := none }) ∧
    (fetchDir (p ++ slashStr) = [] →
      analyzeImportPath fetchDir p =
        { path := p, kind := .file, contents := [], filename := some (pathName p) }) ∧
    ((analyzeImportPath fetchDir p).kind = .directory ↔ fetchDir (p ++ slashStr) ≠ []) := by
  by_cases hc : fetchDir (p ++ slashStr) = []
  · refine ⟨fun hne => absurd hc hne, fun _ => ?_, ?_⟩ <;>
      simp [analyzeImportPath, h1, h2, hc]
  · refine ⟨fun _ => ?_, fun he => absurd he hc, ?_⟩ <;>
      simp [analyzeImportPath, h1, h2, hc]

theorem claim_C1_ambiguous_classification_witness :
    (analyzeImportPath
        (fun _ => [{ name := "mcx".toList, filename := "mcx.yml".toList,
                     path := "devices/mcx.yml".toList }])
        "devices".toList).kind = EntryKind.directory :=
  (claim_C1_ambiguous_classification _ "devices".toList (by decide) (by decide)).2.2.mpr
    (by simp)

/-- C2 counterexample: with no root manifest fetched, `generate_manifest_dict`
does not fail; at this concrete configuration it returns the bare
`{'manifest': \x7b\x7d}` document (an empty output document, with no projects
list), contradicting the claimed `GenerationError`. -/
theorem claim_C2_counterexample :
    generateManifestDict none
        { imports := [("base.yml".toList, .bool true)],
          group_filters := ["+core".toList],
          use_nxp_remotes := true, use_nxp_defaults := true,
          use_nxp_west_commands := true,
          created_at := "2025-01-01".toList,
          nxp_manifest_revision := "main".toList,
          nxp_manifest_url := none } = emptyGenManifest ∧
    emptyGenManifest.projects = none := ⟨rfl, rfl⟩

/-- C2 (amended): if document generation is requested when no root manifest
document has been fetched yet, the operation does not raise; it returns the
bare `{'manifest': \x7b\x7d}` skeleton — no passthrough sections and no
projects list — for every configuration. -/
theorem claim_C2_generate_without_root (cfg : ManifestConfig) :
    generateManifestDict none cfg = emptyGenManifest := rfl

/-- C6: `_fetch_directory_contents` returns the empty sequence on any
transport error or non-200 response, and on a 200 response returns exactly
the body entries whose name ends in '.yml', each carrying full path
`dirPath + name`. -/
theorem claim_C6_listing_failures_absorbed (st : Nat) (files : List RawEntry) (d : PyStr)
    (h : st ≠ 200) :
    fetchDirectoryContents .error d = [] ∧
    fetchDirectoryContents (.response st files) d = [] ∧
    (∀ e ∈ fetchDirectoryContents (.response 200 files) d,
      strEndsWith ymlSuffix e.filename = true ∧
      ∃ f ∈ files, e.filename = f.name ∧ e.path = d ++ f.name) ∧
    (∀ f ∈ files, strEndsWith ymlSuffix f.name = true →
      ∃ e ∈ fetchDirectoryContents (.response 200 files) d, e.filename = f.name) := by
  refine ⟨rfl, by simp [fetchDirectoryContents, h], ?_, ?_⟩
  · intro e he
    have he' : e ∈ (files.filter (fun f => strEndsWith ymlSuffix f.name)).map
        (fun f => ({ name := replaceAll ymlSuffix [] f.name, filename := f.name,
                     path := d ++ f.name } : DirEntry)) := he
    obtain ⟨f, hf, rfl⟩ := List.mem_map.mp he'
    have hfy := List.mem_filter.mp hf
    exact ⟨hfy.2, f, hfy.1, rfl, rfl⟩
  · intro f hf hy
    have hm : ({ name := replaceAll ymlSuffix [] f.name, filename := f.name,
                 path := d ++ f.name } : DirEntry)
        ∈ (files.filter (fun g => strEndsWith ymlSuffix g.name)).map
            (fun g => ({ name := replaceAll ymlSuffix [] g.name, filename := g.name,
                         path := d ++ g.name } : DirEntry)) :=
      List.mem_map.mpr ⟨f, List.mem_filter.mpr ⟨hf, hy⟩, rfl⟩
    exact ⟨_, hm, rfl⟩

theorem claim_C6_listing_failures_absorbed_witness :
    fetchDirectoryContents (.response 404 [{ name := "a.yml".toList }]) "devices/".toList = [] :=
  (claim_C6_listing_failures_absorbed 404 [{ name := "a.yml".toList }] "devices/".toList
    (by decide)).2.1

/-- C10: a directory entry whose listing resolved to the empty sequence is
offered a plain boolean checkbox defaulting to exclude (no ALL/NONE/SELECTIVE
radio group), and when that checkbox is set to include, `flatten` emits the
directory's normalized path itself. -/
theorem claim_C10_empty_listing_directory (info : ImportInfo)
    (h1 : info.kind = EntryKind.directory) (h2 : info.contents = []) :
    defaultSelection info = some (Selection.file false) ∧
    (∀ rest, flattenSelections ((info.path, Selection.file true) :: rest) =
      info.path :: flattenSelections rest) := by
  constructor
  · simp [defaultSelection, h1, h2]
  · intro rest
    rw [flattenSelections_cons]
    rfl

theorem claim_C10_empty_listing_directory_witness :
    defaultSelection
        { path := "examples/".toList, kind := .directory, contents := [], filename := none } =
      some (Selection.file false) :=
  (claim_C10_empty_listing_directory
    { path := "examples/".toList, kind := .directory, contents := [], filename := none }
    rfl rfl).1

/-- C4: `flatten` emits the normalized path of a file selection iff its value
is true; a directory's own path (not its children) for mode ALL; nothing for
mode NONE; and exactly the chosen children's full paths — never the
directory's own path — for mode SELECTIVE; an all-false/all-NONE selection
map flattens to the empty sequence. -/
theorem claim_C4_flatten_semantics (p : PyStr) (rest sels : List (PyStr × Selection))
    (cvs : List (PyStr × Bool)) :
    (flattenSelections ((p, Selection.file true) :: rest) = p :: flattenSelections rest) ∧
    (flattenSelections ((p, Selection.file false) :: rest) = flattenSelections rest) ∧
    (flattenSelections ((p, Selection.dir .all cvs) :: rest) = p :: flattenSelections rest) ∧
    (flattenSelections ((p, Selection.dir .none cvs) :: rest) = flattenSelections rest) ∧
    (flattenSelections ((p, Selection.dir .selective cvs) :: rest) =
      ((cvs.filter (fun cv => cv.2)).map (fun cv => cv.1)) ++ flattenSelections rest) ∧
    ((∀ cv ∈ cvs, cv.1 ≠ p) →
      p ∉ flattenSelections [(p, Selection.dir .selective cvs)]) ∧
    ((∀ ps ∈ sels, ps.2 = Selection.file false ∨
        ∃ cvs2, ps.2 = Selection.dir .none cvs2) →
      flattenSelections sels = []) := by
  refine ⟨rfl, rfl, rfl, rfl, rfl, ?_, flattenSelections_all_off sels⟩
  · intro hcv hp
    have hp' : p ∈ (cvs.filter (fun cv => cv.2)).map (fun cv => cv.1) ++ ([] : List PyStr) := hp
    rw [List.append_nil] at hp'
    obtain ⟨cv, hcvmem, hpe⟩ := List.mem_map.mp hp'
    exact hcv cv (List.mem_filter.mp hcvmem).1 hpe

/-- C7: category assignment is a total function into the five categories,
decided by first-match priority on a case-sensitive plain substring test:
base.yml/internal.yml, else devices, else middleware, else rtos, else Other
(the last two conjuncts exhibit case sensitivity on a concrete path). -/
theorem claim_C7_category_first_match (p : PyStr) :
    (categorize p = Category.baseFiles ↔
      (strContains "base.yml".toList p || strContains "internal.yml".toList p) = true) ∧
    (categorize p = Category.devices ↔
      ((strContains "base.yml".toList p || strContains "internal.yml".toList p) = false ∧
        strContains "devices".toList p = true)) ∧
    (categorize p = Category.middleware ↔
      ((strContains "base.yml".toList p || strContains "internal.yml".toList p) = false ∧
        strContains "devices".toList p = false ∧
        strContains "middleware".toList p = true)) ∧
    (categorize p = Category.rtos ↔
      ((strContains "base.yml".toList p || strContains "internal.yml".toList p) = false ∧
        strContains "devices".toList p = false ∧
        strContains "middleware".toList p = false ∧
        strContains "rtos".toList p = true)) ∧
    (categorize p = Category.other ↔
      ((strContains "base.yml".toList p || strContains "internal.yml".toList p) = false ∧
        strContains "devices".toList p = false ∧
        strContains "middleware".toList p = false ∧
        strContains "rtos".toList p = false)) ∧
    (∀ needle, strContains needle p = true ↔ needle <:+: p) ∧
    categorize "Devices/mcx.yml".toList = Category.other ∧
    categorize "devices/mcx.yml".toList = Category.devices := by
  have hsub : ∀ needle, strContains needle p = true ↔ needle <:+: p := fun needle => by
    simp [strContains]
  refine ⟨?_, ?_, ?_, ?_, ?_, hsub, by decide, by decide⟩ <;>
    (cases hb1 : (strContains "base.yml".toList p || strContains "internal.yml".toList p) <;>
     cases hb2 : strContains "devices".toList p <;>
     cases hb3 : strContains "middleware".toList p <;>
     cases hb4 : strContains "rtos".toList p <;>
       · simp only [categorize, hb1, hb2, hb3, hb4]
         simp [hb1, hb2, hb3, hb4])

/-- C3 counterexample: a directory entry under `devices/` (not `middleware/`)
with a non-empty listing is given the radio default "all" by
`create_directory_options`, i.e. mode ALL — not mode NONE as the claim's
"everything else defaults to mode NONE" requires. -/
theorem claim_C3_counterexample :
    (∃ cvs, defaultSelection
        { path := "devices/".toList, kind := .directory,
          contents := [{ name := "mcx".toList, filename := "mcx.yml".toList,
                         path := "devices/mcx.yml".toList }],
          filename := none } = some (Selection.dir DirMode.all cvs)) ∧
    (∀ cvs, defaultSelection
        { path := "devices/".toList, kind := .directory,
          contents := [{ name := "mcx".toList, filename := "mcx.yml".toList,
                         path := "devices/mcx.yml".toList }],
          filename := none } ≠ some (Selection.dir DirMode.none cvs)) := by
  constructor
  · exact ⟨_, rfl⟩
  · intro cvs h
    simp [defaultSelection] at h

/-- C3 (amended): the first-presentation defaults are: a file entry whose
path contains base.yml, internal.yml or rtos defaults to included; a file
entry under devices/ ending in .yml defaults to excluded; every other file
entry defaults to excluded (the middleware-directory branch of
`_guess_default` is unreachable for files); a directory entry with a
non-empty listing defaults to mode ALL regardless of its path, with all
children unchecked; a directory entry with an empty listing defaults to a
plain excluded checkbox. -/
theorem claim_C3_default_guess (info : ImportInfo) :
    ((info.kind = EntryKind.file ∧
        ((strContains "base.yml".toList info.path ||
          strContains "internal.yml".toList info.path) ||
          strContains "rtos".toList info.path) = true) →
      defaultSelection info = some (Selection.file true)) ∧
    ((info.kind = EntryKind.file ∧
        ((strContains "base.yml".toList info.path ||
          strContains "internal.yml".toList info.path) ||
          strContains "rtos".toList info.path) = false ∧
        strContains "devices/".toList info.path = true ∧
        strEndsWith ymlSuffix info.path = true) →
      defaultSelection info = some (Selection.file false)) ∧
    ((info.kind = EntryKind.file ∧
        ((strContains "base.yml".toList info.path ||
          strContains "internal.yml".toList info.path) ||
          strContains "rtos".toList info.path) = false ∧
        (strContains "devices/".toList info.path && strEndsWith ymlSuffix info.path) = false ∧
        (strContains "middleware/".toList info.path && strEndsWith slashStr info.path) = false) →
      defaultSelection info = some (Selection.file false)) ∧
    ((info.kind = EntryKind.directory ∧ info.contents ≠ []) →
      defaultSelection info =
        some (Selection.dir DirMode.all
          ((sortEntries info.contents).map (fun e => (e.path, false))))) ∧
    ((info.kind = EntryKind.directory ∧ info.contents = []) →
      defaultSelection info = some (Selection.file false)) := by
  have hfile : ∀ hk : info.kind = EntryKind.file,
      defaultSelection info = some (Selection.file (guessDefault info.path)) := by
    intro hk
    simp only [defaultSelection, hk]
  refine ⟨?_, ?_, ?_, ?_, ?_⟩
  · rintro ⟨hk, hb⟩
    rw [hfile hk, guessDefault_eq, hb]
    rfl
  · rintro ⟨hk, hb, h4, h5⟩
    rw [hfile hk, guessDefault_eq, hb, h4, h5]
    rfl
  · rintro ⟨hk, hb, h45, h67⟩
    rw [hfile hk, guessDefault_eq, hb, h45, h67]
    rfl
  · rintro ⟨hk, hc⟩
    simp [defaultSelection, hk, hc]
  · rintro ⟨hk, hc⟩
    simp [defaultSelection, hk, hc]

/-- C5 counterexample: for the declared self-import list
`["devices/a.yml", "base.yml"]` (two plain files, everything selected), the
analyzer's mapping is in declaration order, but the category grouping of
`populate_imports` puts Base Files before Devices, so the final import list
is `["base.yml", "devices/a.yml"]` — declaration order is not preserved
end-to-end. -/
theorem claim_C5_counterexample :
    ((analyzeImports (fun _ => []) [.str "devices/a.yml".toList, .str "base.yml".toList]).map
        Prod.fst = ["devices/a.yml".toList, "base.yml".toList]) ∧
    (flattenSelections
        ((populateOrder
            (analyzeImports (fun _ => [])
              [.str "devices/a.yml".toList, .str "base.yml".toList])).map
          (fun e => (e.1, Selection.file true))) =
      ["base.yml".toList, "devices/a.yml".toList]) ∧
    (["base.yml".toList, "devices/a.yml".toList] ≠
      ["devices/a.yml".toList, "base.yml".toList]) :=
  ⟨by decide, by decide, by decide⟩

/-- C5 (amended): the Structure Analyzer's mapping does iterate in declared
order (for distinct raw paths its key sequence equals the declared string
entries); but `populate_imports` regroups entries by category before the
selection map is built, so the final import list follows category order
(Base Files, Devices, Middleware, RTOS, Other); declaration order is
preserved only among entries of the same category (filtering the presented
order to one category equals filtering the analyzer order to it). -/
theorem claim_C5_declaration_order (f : PyStr → List DirEntry) (imps : List YamlVal)
    (entries : List (PyStr × ImportInfo)) (c : Category)
    (h : (stringEntries imps).Nodup) :
    (analyzeImports f imps).map Prod.fst = stringEntries imps ∧
    (populateOrder entries).filter (fun e => categorize e.1 = c) =
      (entries.map (fun pi => (pi.2.path, pi.2))).filter (fun e => categorize e.1 = c) := by
  constructor
  · have hk := foldl_analyzeStep_keys_nodup f imps [] h (by simp)
    simpa [analyzeImports] using hk
  · simp only [populateOrder, categoryOrder, List.map_cons, List.map_nil,
      List.flatten_cons, List.flatten_nil, List.filter_append, List.filter_nil,
      List.append_nil]
    cases c <;> simp [filter_cat_pair]

theorem claim_C5_declaration_order_witness :
    (analyzeImports (fun _ => [])
        [.str "base.yml".toList, .str "devices/a.yml".toList]).map Prod.fst =
      stringEntries [.str "base.yml".toList, .str "devices/a.yml".toList] :=
  (claim_C5_declaration_order (fun _ => [])
    [.str "base.yml".toList, .str "devices/a.yml".toList] [] Category.other (by decide)).1

/-- C8: deserializing the serialized form of a SavedConfiguration recovers it
field for field, including the imports map's bool-or-list values, the
group-filter list, the three toggles, the creation timestamp, the manifest
revision and the manifest URL. -/
theorem claim_C8_saved_config_round_trip (cfg : ManifestConfig) :
    deserializeConfig (serializeConfig cfg) = some cfg := by
  obtain ⟨imports, gf, r, d, w, ca, rev, url⟩ := cfg
  cases url <;>
    simp [serializeConfig, deserializeConfig, jsonGet, jsonToImports_round,
      mapM_jsonToStr_round, mapM_loop_jsonToStr, allowedConfigKeys]

/-- C9: `analyze_imports` never fails on non-string entries of the
self-import list: non-string entries are silently dropped (prepending one
leaves the result unchanged) and the keys of the produced mapping are
exactly the string entries of the declared list. -/
theorem claim_C9_nonstring_entries_skipped (f : PyStr → List DirEntry)
    (imps : List YamlVal) (k : PyStr) :
    (k ∈ (analyzeImports f imps).map Prod.fst ↔ k ∈ stringEntries imps) ∧
    analyzeImports f (.other :: imps) = analyzeImports f imps := by
  refine ⟨?_, rfl⟩
  rw [analyzeImports, foldl_analyzeStep_keys]
  simp
